/-
Verification of the github_wrapped data-aggregation pipeline
(src/github_wrapped.py) against its specification.

Shallow embedding: HTTP responses are modelled as explicit data handed to
the functions (a page-fetch function for the repository listing, a
per-repository-name fetch function for languages, concrete response records
for the search endpoints).  JSON dictionaries are association lists; Python
dicts preserve insertion order, which association lists model directly.
Python's `sorted(..., reverse=True)` is a stable descending sort, modelled
by a stable insertion sort (`sortDesc`).  `requests`' `raise_for_status`
raises exactly for statuses in [400, 600); an exception is modelled as the
`httpError` outcome of `FetchResult`.  The `while True` pagination loop is
given explicit fuel; running out of fuel yields the `diverged` outcome, so
no theorem can silently identify divergence with normal termination.
The rich-console rendering is modelled structurally: `display_wrapped`
returns the list of panels it would print, carrying the data each panel
displays (purely cosmetic float percentage bars are omitted).
-/
import Mathlib

namespace GithubWrapped

/-- A repository as parsed from the listing endpoint's JSON
(the fields the program reads: `name`, `fork`, `stargazers_count`,
`description`). -/
structure Repo where
  name : String
  fork : Bool
  stargazers_count : Nat
  description : Option String
deriving DecidableEq

/-- A page request issued by `get_all_repos`: the `page` and `per_page`
query parameters. -/
structure PageReq where
  page : Nat
  per_page : Nat
deriving DecidableEq

/-- The platform's response to one repository-listing page request. -/
structure RepoPage where
  status : Nat
  data : List Repo
deriving DecidableEq

/-- The platform's response to a search query; `body` is the JSON
dictionary restricted to its integer fields (the program only reads
`total_count`). -/
structure SearchResp where
  status : Nat
  body : List (String × Nat)
deriving DecidableEq

/-- The platform's response to a per-repository languages request;
`body` is the language-to-byte-count JSON dictionary in iteration order. -/
structure LangResp where
  status : Nat
  body : List (String × Nat)
deriving DecidableEq

/-- The identity endpoint's JSON (the fields the program reads). -/
structure UserInfo where
  name : Option String
  login : String
deriving DecidableEq

/-- Outcome of a fallible call: a value, a raised `requests.HTTPError`
(carrying the status), or non-termination within the modelling fuel. -/
inductive FetchResult (α : Type) where
  | ok (a : α)
  | httpError (status : Nat)
  | diverged
deriving DecidableEq

/-- `Response.raise_for_status` raises exactly for client and server
error statuses, i.e. those in [400, 600). -/
def raisesForStatus (status : Nat) : Bool :=
  400 ≤ status && status < 600

/-- `get_user_info`: fetch the identity endpoint; `raise_for_status`
escalates any HTTP error status. -/
def get_user_info (status : Nat) (user : UserInfo) : FetchResult UserInfo :=
  if raisesForStatus status then .httpError status else .ok user

/-- The pagination loop of `get_all_repos`: request page `page` at
`per_page = 100`, `raise_for_status`, stop on an empty result set,
otherwise append and continue with `page + 1`.  Returns the collected
repositories together with the page requests issued, in order. -/
def get_all_repos_go (fetch : PageReq → RepoPage) :
    Nat → Nat → FetchResult (List Repo) × List PageReq
  | 0, _ => (.diverged, [])
  | fuel + 1, page =>
    let req : PageReq := ⟨page, 100⟩
    let r := fetch req
    if raisesForStatus r.status then (.httpError r.status, [req])
    else if r.data = [] then (.ok [], [req])
    else
      match get_all_repos_go fetch fuel (page + 1) with
      | (.ok rest, reqs) => (.ok (r.data ++ rest), req :: reqs)
      | (.httpError s, reqs) => (.httpError s, req :: reqs)
      | (.diverged, reqs) => (.diverged, req :: reqs)

/-- `get_all_repos`: collect every page starting from page 1. -/
def get_all_repos (fetch : PageReq → RepoPage) (fuel : Nat) :
    FetchResult (List Repo) × List PageReq :=
  get_all_repos_go fetch fuel 1

/-- `get_commit_count`: on status 200 read `total_count` (defaulting to 0
as Python's `dict.get("total_count", 0)` does), otherwise `None`. -/
def get_commit_count (resp : SearchResp) : Option Nat :=
  if resp.status = 200 then some ((resp.body.lookup "total_count").getD 0)
  else none

/-- `get_pr_count`: same shape as `get_commit_count`. -/
def get_pr_count (resp : SearchResp) : Option Nat :=
  if resp.status = 200 then some ((resp.body.lookup "total_count").getD 0)
  else none

/-- `lang_bytes[lang] += count` on a `defaultdict(int)` whose insertion
order is preserved: add into the first entry with this key, or append a
fresh entry at the end. -/
def addLang : List (String × Nat) → String → Nat → List (String × Nat)
  | [], l, c => [(l, c)]
  | (k, v) :: t, l, c =>
    if k = l then (k, v + c) :: t else (k, v) :: addLang t l c

/-- The inner loop `for lang, count in r.json().items(): lang_bytes[lang] += count`. -/
def addBody (t : List (String × Nat)) (body : List (String × Nat)) :
    List (String × Nat) :=
  body.foldl (fun acc p => addLang acc p.1 p.2) t

/-- The outer loop of `get_languages`: skip forks; on a 200 response merge
the body into the running tally; on any other status skip the repository. -/
def aggLangs (fetch : String → LangResp) :
    List Repo → List (String × Nat) → List (String × Nat)
  | [], t => t
  | r :: rs, t =>
    aggLangs fetch rs
      (if r.fork then t
       else if (fetch r.name).status = 200 then addBody t (fetch r.name).body
       else t)

/-- The tally accumulated by `get_languages` before sorting, in insertion
(first-seen-during-fetch) order. -/
def rawTally (fetch : String → LangResp) (repos : List Repo) :
    List (String × Nat) :=
  aggLangs fetch repos []

/-- Stable descending insertion by a `Nat` key: the new element is placed
before the first element whose key is ≤ its own, so earlier elements win
ties.  This is the insertion step of a stable descending sort. -/
def insertDesc (key : α → Nat) (x : α) : List α → List α
  | [] => [x]
  | y :: ys => if key y ≤ key x then x :: y :: ys else y :: insertDesc key x ys

/-- Stable descending sort by a `Nat` key, modelling Python's
`sorted(..., key = ..., reverse = True)` (a stable sort yields a unique
result: sorted descending by key, ties in input order). -/
def sortDesc (key : α → Nat) : List α → List α
  | [] => []
  | x :: xs => insertDesc key x (sortDesc key xs)

/-- `get_languages`: aggregate language byte counts across all non-fork
repositories, then sort descending by byte count. -/
def get_languages (fetch : String → LangResp) (repos : List Repo) :
    List (String × Nat) :=
  sortDesc (fun p => p.2) (rawTally fetch repos)

/-- `total_stars = sum(r["stargazers_count"] for r in repos)` — every
repository, forks included. -/
def total_stars (repos : List Repo) : Nat :=
  (repos.map (fun r => r.stargazers_count)).sum

/-- `top_repos = sorted(repos, key = stargazers_count, reverse = True)[:5]`. -/
def top_repos (repos : List Repo) : List Repo :=
  (sortDesc (fun r => r.stargazers_count) repos).take 5

/-- `top_lang = list(languages.keys())[0] if languages else "code"`. -/
def top_lang (languages : List (String × Nat)) : String :=
  match languages with
  | [] => "code"
  | (l, _) :: _ => l

/-- The commit-panel commentary thresholds. -/
def commitFlavor (c : Nat) : String :=
  if c > 1000 then "You basically lived in the terminal. 🏠"
  else if c > 300 then "Solid year of shipping. 💪"
  else "Quality over quantity. 🎯"

/-- The pull-request-panel commentary thresholds. -/
def prFlavor (p : Nat) : String :=
  if p > 200 then "Reviewing machine. 🤖"
  else if p > 50 then "Great collaborator. 🤝"
  else "Thoughtful contributor. 🧠"

/-- `user.get("name") or user.get("login")`: Python `or` falls through on
`None` and on the empty string. -/
def pyName (u : UserInfo) : String :=
  match u.name with
  | some s => if s = "" then u.login else s
  | none => u.login

/-- One printed block of the report, carrying the data it displays. -/
inductive Panel where
  | greeting (name : String)
  | commits (count : Nat) (flavor : String)
  | prs (count : Nat) (flavor : String)
  | stars (totalStars : Nat) (rows : List (String × Nat × String))
  | languages (topLangs : List (String × Nat))
  | signoff (topLang : String)
deriving DecidableEq

/-- One star-table row: name, star count, description truncated to 55
characters (`(repo["description"] or "")[:55]`). -/
def starRow (r : Repo) : String × Nat × String :=
  (r.name, r.stargazers_count, (r.description.getD "").take 55)

/-- `display_wrapped`, structurally: the sequence of panels printed.  The
commits and pull-request panels are emitted only when the corresponding
count is not `None`; the languages panel only when the tally is non-empty;
the sign-off always, with `top_lang`. -/
def display_wrapped (user : UserInfo) (commit_count pr_count : Option Nat)
    (repos : List Repo) (languages : List (String × Nat)) : List Panel :=
  [Panel.greeting (pyName user)]
  ++ (match commit_count with
      | none => []
      | some c => [Panel.commits c (commitFlavor c)])
  ++ (match pr_count with
      | none => []
      | some p => [Panel.prs p (prFlavor p)])
  ++ [Panel.stars (total_stars repos) ((top_repos repos).map starRow)]
  ++ (if languages = [] then [] else [Panel.languages (languages.take 6)])
  ++ [Panel.signoff (top_lang languages)]

/-- One API request issued during a run, for tracing what was attempted. -/
inductive ApiCall where
  | identity (username : String)
  | listRepos (req : PageReq)
  | searchCommits
  | searchPRs
  | repoLanguages (repoName : String)
deriving DecidableEq

/-- The language-fetch requests the aggregation loop issues: one per
non-fork repository, in order (forks are skipped before any request). -/
def langCalls (repos : List Repo) : List ApiCall :=
  (repos.filter (fun r => !r.fork)).map (fun r => .repoLanguages r.name)

/-- Every response the platform would give during one run. -/
structure World where
  username : String
  userStatus : Nat
  user : UserInfo
  repoPage : PageReq → RepoPage
  commitResp : SearchResp
  prResp : SearchResp
  langResp : String → LangResp

/-- Outcome of `main`: the authentication-failure path (one error message,
`sys.exit(1)`), an uncaught `HTTPError`, a finished report, or
non-termination within the fuel. -/
inductive MainResult where
  | authFailure (message : String) (exitCode : Nat)
  | uncaught (status : Nat)
  | finished (panels : List Panel)
  | diverged
deriving DecidableEq

/-- The error message printed when `get_user_info` raises. -/
def authFailMsg : String :=
  "❌  Could not authenticate. Double-check your username and token."

/-- `main` after input collection and year validation: validate
credentials (catching only `get_user_info`'s `HTTPError`), then collect
repositories, activity counts and languages, and render.  Returns the
outcome together with the trace of API calls issued, in order.  An
`HTTPError` from `get_all_repos` is caught nowhere and escapes. -/
def main (w : World) (fuel : Nat) : MainResult × List ApiCall :=
  match get_user_info w.userStatus w.user with
  | .httpError _ => (.authFailure authFailMsg 1, [.identity w.username])
  | .diverged => (.diverged, [.identity w.username])
  | .ok user =>
    match get_all_repos w.repoPage fuel with
    | (.httpError s, reqs) =>
      (.uncaught s, .identity w.username :: reqs.map ApiCall.listRepos)
    | (.diverged, reqs) =>
      (.diverged, .identity w.username :: reqs.map ApiCall.listRepos)
    | (.ok repos, reqs) =>
      let commit_count := get_commit_count w.commitResp
      let pr_count := get_pr_count w.prResp
      let languages := get_languages w.langResp repos
      (.finished (display_wrapped user commit_count pr_count repos languages),
       .identity w.username :: reqs.map ApiCall.listRepos
         ++ [.searchCommits, .searchPRs] ++ langCalls repos)

/-- Byte count an association list assigns to a language: the sum over all
entries with that key (a well-formed tally has at most one). -/
def valOf (t : List (String × Nat)) (lang : String) : Nat :=
  ((t.filter (fun p => p.1 == lang)).map (fun p => p.2)).sum

/-- The contribution of a repository list to one language's tally: the sum
of that language's byte counts over non-fork repositories whose fetch
returned status 200. -/
def langContrib (fetch : String → LangResp) (repos : List Repo) (lang : String) : Nat :=
  ((repos.filter (fun r => !r.fork && (fetch r.name).status == 200)).map
    (fun r => valOf (fetch r.name).body lang)).sum

/-! ### Concrete data for witnesses and counterexamples -/

/-- A sample repository record. -/
def sampleRepo : Repo := ⟨"repo", false, 0, none⟩

/-- A platform serving pages of sizes 100, 100, 37 and then empty pages. -/
def pages237 : PageReq → RepoPage := fun req =>
  if req.page = 1 ∨ req.page = 2 then ⟨200, List.replicate 100 sampleRepo⟩
  else if req.page = 3 then ⟨200, List.replicate 37 sampleRepo⟩
  else ⟨200, []⟩

/-- A platform for an account that owns no repositories. -/
def pagesEmpty : PageReq → RepoPage := fun _ => ⟨200, []⟩

/-- A platform whose repository-listing endpoint answers 404. -/
def page404 : PageReq → RepoPage := fun _ => ⟨404, []⟩

/-- A sample identity record. -/
def octocat : UserInfo := ⟨none, "octocat"⟩

/-- A run in which the repository listing fails with 404 while everything
else succeeds. -/
def badListingWorld : World :=
  ⟨"octocat", 200, octocat, page404, ⟨200, []⟩, ⟨200, []⟩, fun _ => ⟨200, []⟩⟩

/-- A run in which the identity lookup answers 401. -/
def authFailWorld : World :=
  ⟨"octocat", 401, octocat, pagesEmpty, ⟨200, []⟩, ⟨200, []⟩, fun _ => ⟨200, []⟩⟩

/-- One non-fork repository whose language fetch yields Python before Go,
both at 500 bytes, then Rust at 10. -/
def pyRepo : Repo := ⟨"wrapped", false, 0, none⟩

/-- The language response for `pyRepo`. -/
def pyFetch : String → LangResp :=
  fun _ => ⟨200, [("Python", 500), ("Go", 500), ("Rust", 10)]⟩

/-- Seven repositories with star counts 50, 50, 30, 10, 5, 1, 0. -/
def starRepoA : Repo := ⟨"a", false, 50, none⟩

def starRepoB : Repo := ⟨"b", true, 50, some "second fifty"⟩

def starRepoC : Repo := ⟨"c", false, 30, none⟩

def starRepoD : Repo := ⟨"d", false, 10, none⟩

def starRepoE : Repo := ⟨"e", false, 5, none⟩

def starRepoF : Repo := ⟨"f", false, 1, none⟩

def starRepoG : Repo := ⟨"g", false, 0, none⟩

/-- A failed commit-search response. -/
def failCommitResp : SearchResp := ⟨403, []⟩

/-- A failed PR-search response. -/
def failPRResp : SearchResp := ⟨500, []⟩

/-- A successful commit-search response with a `total_count`. -/
def okCommitResp : SearchResp := ⟨200, [("total_count", 1234)]⟩

/-- A successful PR-search response with a `total_count`. -/
def okPRResp : SearchResp := ⟨200, [("total_count", 7)]⟩

/-- A 200 search response whose body lacks `total_count`. -/
def noCountResp : SearchResp := ⟨200, [("incomplete_results", 1)]⟩

/-- A 200 search response whose `total_count` is genuinely zero. -/
def zeroCountResp : SearchResp := ⟨200, [("total_count", 0)]⟩

/-- A languages endpoint answering 404 for every repository. -/
def lang404 : String → LangResp := fun _ => ⟨404, []⟩

/-! ### Properties of the stable descending sort -/

theorem mem_insertDesc {key : α → Nat} {x a : α} {l : List α} :
    a ∈ insertDesc key x l ↔ a = x ∨ a ∈ l := by
  induction l with
  | nil => simp [insertDesc]
  | cons y ys ih =>
    simp only [insertDesc]
    by_cases h : key y ≤ key x
    · simp [h]
    · simp only [if_neg h, List.mem_cons, ih]
      tauto

theorem perm_insertDesc (key : α → Nat) (x : α) (l : List α) :
    List.Perm (insertDesc key x l) (x :: l) := by
  induction l with
  | nil => simp [insertDesc]
  | cons y ys ih =>
    simp only [insertDesc]
    by_cases h : key y ≤ key x
    · simp [h]
    · rw [if_neg h]
      exact (ih.cons y).trans (List.Perm.swap x y ys)

theorem perm_sortDesc (key : α → Nat) (l : List α) :
    List.Perm (sortDesc key l) l := by
  induction l with
  | nil => rfl
  | cons x xs ih =>
    simp only [sortDesc]
    exact (perm_insertDesc key x (sortDesc key xs)).trans (ih.cons x)

theorem sorted_insertDesc (key : α → Nat) (x : α) {l : List α}
    (h : l.Pairwise (fun a b => key b ≤ key a)) :
    (insertDesc key x l).Pairwise (fun a b => key b ≤ key a) := by
  induction l with
  | nil => simp [insertDesc]
  | cons y ys ih =>
    rw [List.pairwise_cons] at h
    simp only [insertDesc]
    by_cases hc : key y ≤ key x
    · rw [if_pos hc]
      refine List.pairwise_cons.mpr ⟨?_, List.pairwise_cons.mpr ⟨h.1, h.2⟩⟩
      intro b hb
      rcases List.mem_cons.mp hb with rfl | hb'
      · exact hc
      · exact le_trans (h.1 b hb') hc
    · rw [if_neg hc]
      refine List.pairwise_cons.mpr ⟨?_, ih h.2⟩
      intro b hb
      rcases mem_insertDesc.mp hb with rfl | hb'
      · omega
      · exact h.1 b hb'

theorem sorted_sortDesc (key : α → Nat) (l : List α) :
    (sortDesc key l).Pairwise (fun a b => key b ≤ key a) := by
  induction l with
  | nil => simp [sortDesc]
  | cons x xs ih =>
    simp only [sortDesc]
    exact sorted_insertDesc key x ih

theorem filter_insertDesc (key : α → Nat) (x : α) (l : List α) (v : Nat) :
    (insertDesc key x l).filter (fun a => key a == v)
      = if key x = v then x :: l.filter (fun a => key a == v)
        else l.filter (fun a => key a == v) := by
  induction l with
  | nil =>
    simp only [insertDesc]
    by_cases h : key x = v <;> simp [h]
  | cons y ys ih =>
    simp only [insertDesc]
    by_cases hc : key y ≤ key x
    · rw [if_pos hc]
      by_cases hx : key x = v <;> simp [List.filter_cons, hx]
    · rw [if_neg hc, List.filter_cons, ih]
      by_cases hx : key x = v
      · have hy : ¬ key y = v := by omega
        simp [hx, hy, List.filter_cons]
      · by_cases hy : key y = v <;> simp [hx, hy, List.filter_cons]

theorem filter_sortDesc (key : α → Nat) (l : List α) (v : Nat) :
    (sortDesc key l).filter (fun a => key a == v)
      = l.filter (fun a => key a == v) := by
  induction l with
  | nil => rfl
  | cons x xs ih =>
    simp only [sortDesc]
    rw [filter_insertDesc, List.filter_cons]
    by_cases hx : key x = v <;> simp [hx, ih]

/-! ### Accounting lemmas for the language tally -/

theorem valOf_nil (lang : String) : valOf [] lang = 0 := rfl

theorem valOf_cons (k : String) (v : Nat) (t : List (String × Nat)) (lang : String) :
    valOf ((k, v) :: t) lang = (if k = lang then v else 0) + valOf t lang := by
  by_cases h : k = lang <;> simp [valOf, List.filter_cons, h]

theorem valOf_addLang (t : List (String × Nat)) (l : String) (c : Nat) (lang : String) :
    valOf (addLang t l c) lang = valOf t lang + (if l = lang then c else 0) := by
  induction t with
  | nil =>
    simp only [addLang, valOf_cons, valOf_nil]
    omega
  | cons p t ih =>
    obtain ⟨k, v⟩ := p
    simp only [addLang]
    by_cases hk : k = l
    · subst hk
      rw [if_pos rfl]
      simp only [valOf_cons]
      by_cases h : k = lang
      · simp [h]
        omega
      · simp [h]
    · rw [if_neg hk]
      simp only [valOf_cons, ih]
      omega

theorem valOf_addBody (t body : List (String × Nat)) (lang : String) :
    valOf (addBody t body) lang = valOf t lang + valOf body lang := by
  induction body generalizing t with
  | nil => simp [addBody, valOf_nil]
  | cons p b ih =>
    obtain ⟨l, c⟩ := p
    have hstep : addBody t ((l, c) :: b) = addBody (addLang t l c) b := rfl
    rw [hstep, ih, valOf_addLang, valOf_cons]
    omega

theorem valOf_aggLangs (fetch : String → LangResp) (repos : List Repo)
    (t : List (String × Nat)) (lang : String) :
    valOf (aggLangs fetch repos t) lang = valOf t lang + langContrib fetch repos lang := by
  induction repos generalizing t with
  | nil => simp [aggLangs, langContrib]
  | cons r rs ih =>
    simp only [aggLangs]
    by_cases hf : r.fork
    · rw [if_pos hf, ih]
      simp [langContrib, List.filter_cons, hf]
    · rw [if_neg hf]
      by_cases hs : (fetch r.name).status = 200
      · rw [if_pos hs, ih, valOf_addBody]
        simp only [langContrib, List.filter_cons, hf, hs]
        simp
        omega
      · rw [if_neg hs, ih]
        simp [langContrib, List.filter_cons, hf, hs]

theorem valOf_perm {t₁ t₂ : List (String × Nat)} (h : List.Perm t₁ t₂) (lang : String) :
    valOf t₁ lang = valOf t₂ lang :=
  List.Perm.sum_eq ((h.filter _).map _)

theorem valOf_get_languages (fetch : String → LangResp) (repos : List Repo) (lang : String) :
    valOf (get_languages fetch repos) lang = valOf (rawTally fetch repos) lang :=
  valOf_perm (perm_sortDesc _ _) lang

/-! ### Step lemmas for the pagination loop -/

theorem get_all_repos_go_raise (fetch : PageReq → RepoPage) (fuel page : Nat)
    (h : raisesForStatus (fetch ⟨page, 100⟩).status = true) :
    get_all_repos_go fetch (fuel + 1) page
      = (.httpError (fetch ⟨page, 100⟩).status, [⟨page, 100⟩]) := by
  simp [get_all_repos_go, h]

theorem get_all_repos_go_empty (fetch : PageReq → RepoPage) (fuel page : Nat)
    (hs : raisesForStatus (fetch ⟨page, 100⟩).status = false)
    (hd : (fetch ⟨page, 100⟩).data = []) :
    get_all_repos_go fetch (fuel + 1) page = (.ok [], [⟨page, 100⟩]) := by
  simp [get_all_repos_go, hs, hd]

theorem get_all_repos_go_step (fetch : PageReq → RepoPage) (fuel page : Nat)
    (rest : List Repo) (reqs : List PageReq)
    (hs : raisesForStatus (fetch ⟨page, 100⟩).status = false)
    (hd : (fetch ⟨page, 100⟩).data ≠ [])
    (hrec : get_all_repos_go fetch fuel (page + 1) = (.ok rest, reqs)) :
    get_all_repos_go fetch (fuel + 1) page
      = (.ok ((fetch ⟨page, 100⟩).data ++ rest), ⟨page, 100⟩ :: reqs) := by
  simp [get_all_repos_go, hs, hd, hrec]

/-- Sum of star counts distributes over cons. -/
theorem total_stars_cons (r : Repo) (rs : List Repo) :
    total_stars (r :: rs) = r.stargazers_count + total_stars rs := by
  simp [total_stars]

/-! ### Claims -/

/-- C1: for every repository list and every set of fetch outcomes, the
language aggregation excludes every fork, and each language's tally in the
returned mapping equals the exact sum of that language's byte counts over
the non-fork repositories whose languages request returned status 200; a
non-200 response contributes nothing and never aborts the aggregation of
the remaining repositories (the result is still defined and correct for
them). -/
theorem language_aggregation_correct (fetch : String → LangResp)
    (repos : List Repo) (lang : String) :
    valOf (get_languages fetch repos) lang = langContrib fetch repos lang := by
  rw [valOf_get_languages]
  have h := valOf_aggLangs fetch repos [] lang
  simpa [rawTally, valOf_nil] using h

/-- C5: the tally returned by `get_languages` is always sorted descending
by byte count, and the entries carrying any fixed byte count appear in
exactly their original fetch (insertion) order — the stable-sort
property — for every repository list and set of fetch outcomes. -/
theorem tally_sorted_stable (fetch : String → LangResp) (repos : List Repo)
    (v : Nat) :
    (get_languages fetch repos).Pairwise (fun a b => b.2 ≤ a.2) ∧
    (get_languages fetch repos).filter (fun p => p.2 == v)
      = (rawTally fetch repos).filter (fun p => p.2 == v) := by
  constructor
  · exact sorted_sortDesc (fun p => p.2) (rawTally fetch repos)
  · exact filter_sortDesc (fun p => p.2) (rawTally fetch repos) v

/-- C7: the total lifetime stars equal the sum of `stargazers_count` over
all repositories, and the sum splits as forks plus non-forks — forked
repositories are included. -/
theorem total_stars_correct (repos : List Repo) :
    total_stars repos = (repos.map (fun r => r.stargazers_count)).sum ∧
    total_stars repos
      = total_stars (repos.filter (fun r => r.fork))
        + total_stars (repos.filter (fun r => !r.fork)) := by
  refine ⟨rfl, ?_⟩
  induction repos with
  | nil => rfl
  | cons r rs ih =>
    by_cases hf : r.fork <;>
      simp [List.filter_cons, hf, total_stars_cons, ih] <;> omega

/-- C2: the repository collector requests pages 1, 2, 3, … at page size
100, appends each page's results in order, and stops at the first empty
page: with pages of sizes 100, 100, 37, 0 it returns 237 repositories
after exactly the four requests page 1–4, and an account with no
repositories yields the empty sequence after one request, not an error. -/
theorem pagination_terminates (fetch fetch0 : PageReq → RepoPage) (fuel : Nat)
    (hfuel : 4 ≤ fuel)
    (h1s : (fetch ⟨1, 100⟩).status = 200) (h1l : (fetch ⟨1, 100⟩).data.length = 100)
    (h2s : (fetch ⟨2, 100⟩).status = 200) (h2l : (fetch ⟨2, 100⟩).data.length = 100)
    (h3s : (fetch ⟨3, 100⟩).status = 200) (h3l : (fetch ⟨3, 100⟩).data.length = 37)
    (h4s : (fetch ⟨4, 100⟩).status = 200) (h4l : (fetch ⟨4, 100⟩).data = [])
    (h0s : (fetch0 ⟨1, 100⟩).status = 200) (h0l : (fetch0 ⟨1, 100⟩).data = []) :
    (∃ repos,
      get_all_repos fetch fuel
        = (.ok repos, [⟨1, 100⟩, ⟨2, 100⟩, ⟨3, 100⟩, ⟨4, 100⟩]) ∧
      repos.length = 237) ∧
    get_all_repos fetch0 fuel = (.ok [], [⟨1, 100⟩]) := by
  obtain ⟨k, rfl⟩ : ∃ k, fuel = k + 1 + 1 + 1 + 1 := ⟨fuel - 4, by omega⟩
  have hok : ∀ s, s = 200 → raisesForStatus s = false := by
    intro s h
    subst h
    rfl
  have hne1 : (fetch ⟨1, 100⟩).data ≠ [] := by
    intro h
    rw [h] at h1l
    simp at h1l
  have hne2 : (fetch ⟨2, 100⟩).data ≠ [] := by
    intro h
    rw [h] at h2l
    simp at h2l
  have hne3 : (fetch ⟨3, 100⟩).data ≠ [] := by
    intro h
    rw [h] at h3l
    simp at h3l
  have e4 : get_all_repos_go fetch (k + 1) 4 = (.ok [], [⟨4, 100⟩]) :=
    get_all_repos_go_empty fetch k 4 (hok _ h4s) h4l
  have e3 : get_all_repos_go fetch (k + 1 + 1) 3
      = (.ok ((fetch ⟨3, 100⟩).data ++ []), [⟨3, 100⟩, ⟨4, 100⟩]) :=
    get_all_repos_go_step fetch (k + 1) 3 [] [⟨4, 100⟩] (hok _ h3s) hne3 e4
  have e2 : get_all_repos_go fetch (k + 1 + 1 + 1) 2
      = (.ok ((fetch ⟨2, 100⟩).data ++ ((fetch ⟨3, 100⟩).data ++ [])),
         [⟨2, 100⟩, ⟨3, 100⟩, ⟨4, 100⟩]) :=
    get_all_repos_go_step fetch (k + 1 + 1) 2 _ _ (hok _ h2s) hne2 e3
  have e1 : get_all_repos_go fetch (k + 1 + 1 + 1 + 1) 1
      = (.ok ((fetch ⟨1, 100⟩).data
           ++ ((fetch ⟨2, 100⟩).data ++ ((fetch ⟨3, 100⟩).data ++ []))),
         [⟨1, 100⟩, ⟨2, 100⟩, ⟨3, 100⟩, ⟨4, 100⟩]) :=
    get_all_repos_go_step fetch (k + 1 + 1 + 1) 1 _ _ (hok _ h1s) hne1 e2
  refine ⟨⟨_, e1, ?_⟩, ?_⟩
  · simp [h1l, h2l, h3l]
  · exact get_all_repos_go_empty fetch0 (k + 1 + 1 + 1) 1 (hok _ h0s) h0l

/-- C2 witness: the stub platform `pages237` yields 237 repositories after
exactly the four page requests, and `pagesEmpty` yields the empty
sequence. -/
theorem pagination_terminates_witness :
    (∃ repos,
      get_all_repos pages237 4
        = (.ok repos, [⟨1, 100⟩, ⟨2, 100⟩, ⟨3, 100⟩, ⟨4, 100⟩]) ∧
      repos.length = 237) ∧
    get_all_repos pagesEmpty 4 = (.ok [], [⟨1, 100⟩]) :=
  pagination_terminates pages237 pagesEmpty 4 (by decide)
    rfl rfl rfl rfl rfl rfl rfl rfl rfl rfl

/-- C3 counterexample: a 404 on page 1 of the repository listing is raised
as an `HTTPError` rather than surfaced as a returned status, and it
escapes `main` uncaught — refuting the claim that the repository-listing
endpoint never raises through the pipeline. -/
theorem listing_raises_counterexample :
    get_all_repos page404 5 = (.httpError 404, [⟨1, 100⟩]) ∧
    main badListingWorld 5
      = (.uncaught 404, [.identity "octocat", .listRepos ⟨1, 100⟩]) :=
  ⟨rfl, rfl⟩

/-- C3 amended: the commit-search, PR-search and per-repository-language
endpoints surface non-success as a returned value (absent count / skipped
repository) and never raise, while the repository-listing endpoint — like
the identity endpoint — raises an `HTTPError` for any status in
[400, 600). -/
theorem query_endpoints_degrade (cresp presp : SearchResp)
    (lfetch : String → LangResp) (r : Repo) (rs : List Repo)
    (t : List (String × Nat)) (fetch : PageReq → RepoPage)
    (fuel ustatus : Nat) (u : UserInfo)
    (hc : cresp.status ≠ 200) (hp : presp.status ≠ 200)
    (hr : r.fork = false) (hlr : (lfetch r.name).status ≠ 200)
    (hfuel : 1 ≤ fuel)
    (hlist : raisesForStatus (fetch ⟨1, 100⟩).status = true)
    (hid : raisesForStatus ustatus = true) :
    get_commit_count cresp = none ∧
    get_pr_count presp = none ∧
    aggLangs lfetch (r :: rs) t = aggLangs lfetch rs t ∧
    get_all_repos fetch fuel
      = (.httpError (fetch ⟨1, 100⟩).status, [⟨1, 100⟩]) ∧
    get_user_info ustatus u = .httpError ustatus := by
  obtain ⟨k, rfl⟩ : ∃ k, fuel = k + 1 := ⟨fuel - 1, by omega⟩
  refine ⟨?_, ?_, ?_, ?_, ?_⟩
  · simp [get_commit_count, hc]
  · simp [get_pr_count, hp]
  · simp [aggLangs, hr, hlr]
  · exact get_all_repos_go_raise fetch k 1 hlist
  · simp [get_user_info, hid]

/-- C3 amended witness: concrete failing responses for each endpoint. -/
theorem query_endpoints_degrade_witness :
    get_commit_count failCommitResp = none ∧
    get_pr_count failPRResp = none ∧
    aggLangs lang404 (sampleRepo :: []) [] = aggLangs lang404 [] [] ∧
    get_all_repos page404 1
      = (.httpError (page404 ⟨1, 100⟩).status, [⟨1, 100⟩]) ∧
    get_user_info 401 octocat = .httpError 401 :=
  query_endpoints_degrade failCommitResp failPRResp lang404 sampleRepo [] []
    page404 1 401 octocat (by decide) (by decide) rfl (by decide) (by decide)
    rfl rfl

/-- An absent commit count suppresses the commits panel entirely. -/
theorem commits_not_rendered (u : UserInfo) (opr : Option Nat)
    (repos : List Repo) (langs : List (String × Nat)) (c : Nat) (cf : String) :
    Panel.commits c cf ∉ display_wrapped u none opr repos langs := by
  cases opr <;> by_cases hl : langs = [] <;> simp [display_wrapped, hl]

/-- An absent PR count suppresses the pull-requests panel entirely. -/
theorem prs_not_rendered (u : UserInfo) (oc : Option Nat)
    (repos : List Repo) (langs : List (String × Nat)) (p : Nat) (pf : String) :
    Panel.prs p pf ∉ display_wrapped u oc none repos langs := by
  cases oc <;> by_cases hl : langs = [] <;> simp [display_wrapped, hl]

/-- C4: a non-success commit-search (resp. PR-search) status yields an
absent count — `none`, neither zero nor an error — and the corresponding
panel is then never rendered (in particular never as "0 commits"); on a
success status the count equals the response's `total_count`. -/
theorem activity_counts_absent (cfail pfail csucc psucc : SearchResp)
    (u : UserInfo) (oc opr : Option Nat) (repos : List Repo)
    (langs : List (String × Nat)) (c p n m : Nat) (cf pf : String)
    (hc : cfail.status ≠ 200) (hp : pfail.status ≠ 200)
    (hcs : csucc.status = 200) (hcn : csucc.body.lookup "total_count" = some n)
    (hps : psucc.status = 200) (hpm : psucc.body.lookup "total_count" = some m) :
    get_commit_count cfail = none ∧
    get_pr_count pfail = none ∧
    Panel.commits c cf ∉ display_wrapped u (get_commit_count cfail) opr repos langs ∧
    Panel.prs p pf ∉ display_wrapped u oc (get_pr_count pfail) repos langs ∧
    get_commit_count csucc = some n ∧
    get_pr_count psucc = some m := by
  have hcc : get_commit_count cfail = none := by simp [get_commit_count, hc]
  have hpp : get_pr_count pfail = none := by simp [get_pr_count, hp]
  refine ⟨hcc, hpp, ?_, ?_, ?_, ?_⟩
  · rw [hcc]
    exact commits_not_rendered u opr repos langs c cf
  · rw [hpp]
    exact prs_not_rendered u oc repos langs p pf
  · simp [get_commit_count, hcs, hcn]
  · simp [get_pr_count, hps, hpm]

/-- C4 witness: concrete failing and succeeding search responses. -/
theorem activity_counts_absent_witness :
    get_commit_count failCommitResp = none ∧
    get_pr_count failPRResp = none ∧
    Panel.commits 0 "Quality over quantity. 🎯"
      ∉ display_wrapped octocat (get_commit_count failCommitResp) (some 7) [] [] ∧
    Panel.prs 0 "Thoughtful contributor. 🧠"
      ∉ display_wrapped octocat (some 3) (get_pr_count failPRResp) [] [] ∧
    get_commit_count okCommitResp = some 1234 ∧
    get_pr_count okPRResp = some 7 :=
  activity_counts_absent failCommitResp failPRResp okCommitResp okPRResp
    octocat (some 3) (some 7) [] [] 0 0 1234 7
    "Quality over quantity. 🎯" "Thoughtful contributor. 🧠"
    (by decide) (by decide) rfl rfl rfl rfl

/-- C6: with seven repositories of star counts 50, 50, 30, 10, 5, 1, 0 in
collection order, the top-repository ranking is the first five of the
stable descending sort: length 5, the two 50-star repositories first in
their original relative order, then the 30-, 10- and 5-star ones. -/
theorem top_repos_ranking (r0 r1 r2 r3 r4 r5 r6 : Repo)
    (h0 : r0.stargazers_count = 50) (h1 : r1.stargazers_count = 50)
    (h2 : r2.stargazers_count = 30) (h3 : r3.stargazers_count = 10)
    (h4 : r4.stargazers_count = 5) (h5 : r5.stargazers_count = 1)
    (h6 : r6.stargazers_count = 0) :
    top_repos [r0, r1, r2, r3, r4, r5, r6] = [r0, r1, r2, r3, r4] ∧
    (top_repos [r0, r1, r2, r3, r4, r5, r6]).length = 5 ∧
    (top_repos [r0, r1, r2, r3, r4, r5, r6]).map (fun r => r.stargazers_count)
      = [50, 50, 30, 10, 5] := by
  have hsort : sortDesc (fun r => r.stargazers_count) [r0, r1, r2, r3, r4, r5, r6]
      = [r0, r1, r2, r3, r4, r5, r6] := by
    simp [sortDesc, insertDesc, h0, h1, h2, h3, h4, h5, h6]
  refine ⟨?_, ?_, ?_⟩ <;> simp [top_repos, hsort, h0, h1, h2, h3, h4]

/-- C6 witness: the ranking at seven concrete repositories. -/
theorem top_repos_ranking_witness :
    top_repos [starRepoA, starRepoB, starRepoC, starRepoD, starRepoE,
               starRepoF, starRepoG]
      = [starRepoA, starRepoB, starRepoC, starRepoD, starRepoE] ∧
    (top_repos [starRepoA, starRepoB, starRepoC, starRepoD, starRepoE,
                starRepoF, starRepoG]).length = 5 ∧
    (top_repos [starRepoA, starRepoB, starRepoC, starRepoD, starRepoE,
                starRepoF, starRepoG]).map (fun r => r.stargazers_count)
      = [50, 50, 30, 10, 5] :=
  top_repos_ranking starRepoA starRepoB starRepoC starRepoD starRepoE
    starRepoF starRepoG rfl rfl rfl rfl rfl rfl rfl

/-- C8 counterexample: with an empty tally the computed top language is
the placeholder string "code" and the sign-off panel is still rendered
with it — it is not absent, refuting the claim as stated. -/
theorem top_lang_placeholder_counterexample :
    top_lang [] = "code" ∧
    Panel.signoff "code" ∈ display_wrapped octocat none none [] [] := by
  refine ⟨rfl, ?_⟩
  simp [display_wrapped, top_lang]

/-- C8 amended: the computed top language is the first entry of the
already-sorted tally whenever the tally is non-empty — in particular
"Python" for the tally Python 500, Go 500, Rust 10 with Python fetched
before Go — but an empty tally yields the placeholder string "code" in
the sign-off rather than an absent value. -/
theorem top_lang_first_entry (q : String × Nat) (rest : List (String × Nat)) :
    top_lang (q :: rest) = q.1 ∧
    top_lang [] = "code" ∧
    get_languages pyFetch [pyRepo]
      = [("Python", 500), ("Go", 500), ("Rust", 10)] ∧
    top_lang (get_languages pyFetch [pyRepo]) = "Python" := by
  obtain ⟨k, v⟩ := q
  exact ⟨rfl, rfl, rfl, rfl⟩

/-- C9: if the identity lookup returns an HTTP-error status, `main` takes
the authentication-failure path: one error message, exit code 1
(non-zero), and an API-call trace containing only the identity request —
no repository listing, search or language request is attempted. -/
theorem auth_failure_fatal (w : World) (fuel : Nat)
    (h : raisesForStatus w.userStatus = true) :
    main w fuel = (.authFailure authFailMsg 1, [.identity w.username]) ∧
    (1 : Nat) ≠ 0 := by
  refine ⟨?_, by decide⟩
  simp [main, get_user_info, h]

/-- C9 witness: a 401 identity response aborts the run at once. -/
theorem auth_failure_fatal_witness :
    main authFailWorld 0
      = (.authFailure authFailMsg 1, [.identity "octocat"]) ∧
    (1 : Nat) ≠ 0 :=
  auth_failure_fatal authFailWorld 0 rfl

/-- C10: a 200 search response whose body lacks `total_count` yields the
present value `some 0` — not an absent count — indistinguishable at the
interface from a response whose `total_count` is genuinely zero. -/
theorem missing_total_count_reads_zero (resp zresp : SearchResp)
    (hs : resp.status = 200) (hb : resp.body.lookup "total_count" = none)
    (hzs : zresp.status = 200) (hzb : zresp.body.lookup "total_count" = some 0) :
    get_commit_count resp = some 0 ∧
    get_pr_count resp = some 0 ∧
    get_commit_count resp = get_commit_count zresp ∧
    get_pr_count resp = get_pr_count zresp := by
  simp [get_commit_count, get_pr_count, hs, hb, hzs, hzb]

/-- C10 witness: a body without `total_count` versus one with
`total_count = 0`. -/
theorem missing_total_count_reads_zero_witness :
    get_commit_count noCountResp = some 0 ∧
    get_pr_count noCountResp = some 0 ∧
    get_commit_count noCountResp = get_commit_count zeroCountResp ∧
    get_pr_count noCountResp = get_pr_count zeroCountResp :=
  missing_total_count_reads_zero noCountResp zeroCountResp rfl rfl rfl rfl

end GithubWrapped
